import Mathlib

/-!
A shallow embedding of the path-forking execution core of the caffeine
symbolic-execution engine, together with theorems settling claims about
its behaviour.  Definitions follow the C++ sources:

* `src/IR/Operation.h`                      — `constant_int_compare`
* `src/Solver/Z3Solver.cpp`                 — `Z3Solver::check`, `Z3Solver::resolve`,
                                              `z3_to_apfloat`, `Z3Model::lookup`,
                                              `normalize_to_bool` / `normalize_to_bv`,
                                              `Z3OpVisitor`
* `src/Interpreter/TransformBuilder.cpp`    — `TransformBuilder::execute`,
                                              `TransformBuilder::resolve`
* `src/Interpreter/InterpreterContext.cpp`  — `InterpreterContext::log_failure`

Components of the repository that are not part of the provided sources
(`AssertionList`, `MemHeap::check_valid`, `Context::fork`/`backprop`) are
modelled from the specification; their definitions say so in their doc
comments.
-/

namespace Caffeine

/-- The kind of a solver result: `SolverResult::{SAT, UNSAT, Unknown}`. -/
inductive SKind
  | SAT
  | UNSAT
  | Unknown
deriving DecidableEq, Repr

/-- A solver result, optionally carrying a model (models are abstract tokens
here; only a SAT result carries one, mirroring the assertion in
`SolverResult::SolverResult`). -/
inductive SolverResult
  | sat (model : Nat)
  | unsat
  | unknown
deriving DecidableEq, Repr

/-- `SolverResult::kind()`. -/
def SolverResult.kind : SolverResult → SKind
  | .sat _ => .SAT
  | .unsat => .UNSAT
  | .unknown => .Unknown

/-- A resolved pointer's payload: heap id, allocation id and in-allocation
offset (`Pointer` in its resolved form; offsets are abstract term tokens). -/
structure RPtr where
  heap : Nat
  alloc : Nat
  offset : Nat
deriving DecidableEq, Repr

/-- `Pointer`: either resolved (heap id + allocation id + offset) or
unresolved (a single address term). -/
inductive Pointer
  | resolved (r : RPtr)
  | unresolved (addr : Nat)
deriving DecidableEq, Repr

/-- `Pointer::is_resolved()`. -/
def Pointer.is_resolved : Pointer → Bool
  | .resolved _ => true
  | .unresolved _ => false

/-- Boolean terms wrapped as assertions.  `tt`/`ff` are the constant
true/false assertions (a default-constructed `Assertion` is the constant
true).  The remaining constructors record the provenance of assertions the
embedded code builds: heap validity checks, in-bounds checks, backprop
equalities, negation, and opaque symbolic assertions. -/
inductive Assertion
  | tt
  | ff
  | validPtr (p : Pointer) (len : Nat)
  | inbounds (heap alloc offset len : Nat)
  | ptrEq (u : Pointer) (r : RPtr)
  | neg (a : Assertion)
  | sym (n : Nat)
deriving DecidableEq, Repr

/-- `Assertion::is_constant_value(b)`: whether the assertion is the constant
with value `b`. -/
def Assertion.is_constant_value : Assertion → Bool → Bool
  | .tt, true => true
  | .ff, false => true
  | _, _ => false

/-- Modelled from the spec: `AssertionList` (its source, `caffeine/IR/Assertion`,
is not among the provided files).  An append-only list of assertions plus the
index delimiting the suffix not yet known SAT (`unproven`). -/
structure AssertionList where
  list : List Assertion
  proven : Nat
deriving DecidableEq, Repr

/-- Modelled from the spec: `AssertionList::insert` appends unless the
assertion is trivially true. -/
def AssertionList.insert (al : AssertionList) (a : Assertion) : AssertionList :=
  if a.is_constant_value true then al else { al with list := al.list ++ [a] }

/-- Modelled from the spec: `AssertionList::checkpoint` returns the current
length. -/
def AssertionList.checkpoint (al : AssertionList) : Nat := al.list.length

/-- Modelled from the spec: `AssertionList::restore(c)` truncates to length
`c`. -/
def AssertionList.restore (al : AssertionList) (c : Nat) : AssertionList :=
  { list := al.list.take c, proven := min al.proven c }

/-- Modelled from the spec: `AssertionList::unproven()` is the suffix not yet
known SAT in isolation. -/
def AssertionList.unproven (al : AssertionList) : List Assertion :=
  al.list.drop al.proven

namespace Z3Solver

/-- `Z3Solver::resolve(assertions, extra)` (`src/Solver/Z3Solver.cpp`):
fast-path UNSAT when `extra` is trivially false; otherwise encode the
non-trivial assertions (iteration of an `AssertionList` skips empty and
trivially-true entries) plus `extra` and query the backend.  The backend —
the concrete Z3 solver — is an oracle parameter.  The second component of the
result records whether the backend was queried. -/
def resolve (backend : List Assertion → SolverResult) (al : AssertionList)
    (extra : Assertion) : SolverResult × Bool :=
  if extra.is_constant_value false then (.unsat, false)
  else
    let query := al.list.filter (fun a => !a.is_constant_value true) ++
      (if extra.is_constant_value true then [] else [extra])
    (backend query, true)

/-- `Z3Solver::check(assertions, extra)` (`src/Solver/Z3Solver.cpp`): two
backend-free fast paths, then checkpoint, insert `extra`, a third fast path,
and finally a call to `resolve` with an empty extra assertion; the checkpoint
is restored (scope guard) on every path after its creation.  Returns the
result kind, the final assertion list, and whether the backend was
queried. -/
def check (backend : List Assertion → SolverResult) (al : AssertionList)
    (extra : Assertion) : SKind × AssertionList × Bool :=
  if al.unproven.isEmpty && extra.is_constant_value true then (.SAT, al, false)
  else if extra.is_constant_value false then (.UNSAT, al, false)
  else
    let cp := al.checkpoint
    let al1 := al.insert extra
    if al1.unproven.isEmpty then (.SAT, al1.restore cp, false)
    else
      let r := resolve backend al1 .tt
      (r.1.kind, al1.restore cp, r.2)

end Z3Solver

/-- `LLVMScalar`/`LLVMValue` restricted to scalars: a pure term (abstract
token) or a pointer.  The transform builder's `resolve` only manipulates
scalar pointers. -/
inductive LLVMValue
  | pointer (p : Pointer)
  | term (t : Nat)
deriving DecidableEq, Repr

/-- A path context: the exclusive owner of a path condition (the heap and
stack play no role in the embedded operations beyond the allocation ids
already carried by pointers and assertions). -/
structure Context where
  assertions : List Assertion
deriving DecidableEq, Repr

/-- `Context::add` delegates to `AssertionList::insert`: append unless the
assertion is trivially true. -/
def Context.add (c : Context) (a : Assertion) : Context :=
  if a.is_constant_value true then c else { c with assertions := c.assertions ++ [a] }

/-- Modelled from the spec: `Context::backprop(unresolved, resolved)` records
an equality between the unresolved pointer's address and the resolved
pointer's `base + offset` in the path condition (`Context.cpp` is not among
the provided files). -/
def Context.backprop (c : Context) (u : Pointer) (r : RPtr) : Context :=
  { c with assertions := c.assertions ++ [.ptrEq u r] }

/-- Modelled from the spec: `Context::fork(n)` yields `n` independent copies
of the context (`Context.cpp` is not among the provided files; copies are
value-copies). -/
def Context.fork (c : Context) (n : Nat) : List Context :=
  List.replicate n c

/-- Modelled from the spec: `MemHeapMgr::check_valid(ptr, len)` produces the
validity assertion for an access of `len` bytes through `ptr`
(`MemHeap.cpp` is not among the provided files; the embedded operations use
the assertion opaquely). -/
def MultiHeap.check_valid (p : Pointer) (len : Nat) : Assertion :=
  .validPtr p len

/-- Externally observable effects of the interpreter: a call into the failure
logger and a call into the execution policy. -/
inductive Outcome
  | Success
  | Fail
  | Unreachable
  | Dead
deriving DecidableEq, Repr

/-- Events emitted towards the failure logger and the execution policy. -/
inductive Event
  | failureLogged (model : Nat) (ctx : Context) (a : Assertion) (msg : String)
  | pathComplete (ctx : Context) (o : Outcome) (a : Assertion)
deriving DecidableEq, Repr

/-- `InterpreterContext::log_failure(assertion, message)`
(`src/Interpreter/InterpreterContext.cpp`): re-resolve the assertion against
the path condition asking for a model; if the result is not SAT, return
without doing anything; otherwise log the failure with the obtained model and
notify the policy that the path completed with outcome `Fail`.  The solver is
the oracle `resolveO` (path condition, extra assertion ↦ result). -/
def InterpreterContext.log_failure
    (resolveO : List Assertion → Assertion → SolverResult)
    (ctx : Context) (a : Assertion) (msg : String) : List Event :=
  match resolveO ctx.assertions a with
  | .sat m => [.failureLogged m ctx a msg, .pathComplete ctx .Fail a]
  | _ => []

namespace TransformBuilder

/-- `TransformBuilder::ContextState`: an owned context, the SSA environment of
intermediate values keyed by operation index, and the instruction pointer. -/
structure ContextState where
  ctx : Context
  values : List (Nat × LLVMValue)
  inst : Nat
deriving DecidableEq, Repr

/-- `ContextState::lookup` on a `TransformBuilder::Value` argument:
`values.at(index)`. -/
def ContextState.lookupValue (s : ContextState) (k : Nat) : Option LLVMValue :=
  (s.values.find? (fun p => p.1 == k)).map Prod.snd

/-- `ContextState::insert(key, val)`. -/
def ContextState.insertValue (s : ContextState) (k : Nat) (v : LLVMValue) :
    ContextState :=
  { s with values := (k, v) :: s.values }

/-- `ContextState::fork(newctx)`: a clone owning `newctx` with the same SSA
environment and instruction pointer. -/
def ContextState.fork (s : ContextState) (newctx : Context) : ContextState :=
  { ctx := newctx, values := s.values, inst := s.inst }

/-- The state produced for one resolution candidate `r` in the loop of
`TransformBuilder::resolve`: the forked context gains the candidate's
`check_inbounds` assertion, then (if the source pointer was unresolved) the
`backprop` equality; the operation's result id (`state.current()`, i.e.
`inst - 1`) is bound to `LLVMValue(ptr)` for the candidate. -/
def forkedState (state : ContextState) (u : Pointer) (storeSize : Nat)
    (r : RPtr) : ContextState :=
  let fork0 := Context.add state.ctx (.inbounds r.heap r.alloc r.offset storeSize)
  let fork1 := if u.is_resolved then fork0 else Context.backprop fork0 u r
  ContextState.insertValue (ContextState.fork state fork1) (state.inst - 1)
    (LLVMValue.pointer (Pointer.resolved r))

/-- The forking transform registered by `TransformBuilder::resolve(pointer,
type, die_on_failure)` (`src/Interpreter/TransformBuilder.cpp`), applied to a
state whose instruction pointer was already advanced by `execute`.  `checkO`
models `InterpreterContext::check` (feasibility only), `resolveO` models
`InterpreterContext::resolve` (with model, used by `log_failure`), and
`ptrResolve` models `InterpreterContext::ptr_resolve`, i.e.
`MemHeapMgr::resolve`, whose results are always resolved pointers.  Returns
`none` if the pointer argument does not look up to a scalar pointer (the C++
would assert), and otherwise the emitted events together with the states
pushed back onto the work stack. -/
def resolveStep (checkO : List Assertion → Assertion → SKind)
    (resolveO : List Assertion → Assertion → SolverResult)
    (ptrResolve : Context → Pointer → List RPtr)
    (storeSize : Nat) (dieOnFailure : Bool) (parg : Nat)
    (state : ContextState) : Option (List Event × List ContextState) :=
  match state.lookupValue parg with
  | some (LLVMValue.pointer unresolved) =>
    let ctx := state.ctx
    let assertion := MultiHeap.check_valid unresolved storeSize
    let failEvents :=
      if checkO ctx.assertions (.neg assertion) = SKind.SAT then
        InterpreterContext.log_failure resolveO ctx (.neg assertion)
          "invalid pointer load/store"
      else []
    if checkO ctx.assertions (.neg assertion) = SKind.SAT ∧ dieOnFailure then
      some (failEvents, [])
    else
      let resolved := ptrResolve ctx unresolved
      let forks := ctx.fork resolved.length
      let pushed := (forks.zip resolved).map (fun fr =>
        let fork0 := Context.add fr.1
          (.inbounds fr.2.heap fr.2.alloc fr.2.offset storeSize)
        let fork1 := if unresolved.is_resolved then fork0
          else Context.backprop fork0 unresolved fr.2
        ContextState.insertValue (state.fork fork1) (state.inst - 1)
          (LLVMValue.pointer (Pointer.resolved fr.2)))
      some (failEvents, pushed)
  | _ => none

/-- The result of one outer execution step (`ExecutionResult`): continue with
the (replaced) context, or yield a multi-context result holding all output
contexts. -/
inductive ExecResult
  | Continue
  | Multiple (ctxs : List Context)
deriving DecidableEq, Repr

/-- The DFS work-stack loop of `TransformBuilder::execute`, with explicit
fuel (the C++ loop's termination depends on the registered operations).  The
stack has its top at the head; a state whose instruction pointer has passed
the end of the operation sequence promotes its context to the output set,
otherwise the next operation is applied to the state with the instruction
pointer advanced, and the states it pushes land on top of the stack (last
pushed on top). -/
def executeLoop (ops : List (ContextState → List ContextState)) :
    Nat → List ContextState → List Context → Option (List Context)
  | 0, _, _ => none
  | _ + 1, [], output => some output
  | fuel + 1, state :: rest, output =>
    if h : state.inst < ops.length then
      let op := ops.get ⟨state.inst, h⟩
      let pushed := op { state with inst := state.inst + 1 }
      executeLoop ops fuel (pushed.reverse ++ rest) output
    else
      executeLoop ops fuel rest (output ++ [state.ctx])

/-- `TransformBuilder::execute(interp)` (`src/Interpreter/TransformBuilder.cpp`):
run the DFS from a fork of the interpreter's context with an empty SSA
environment and instruction pointer 0.  With exactly one output context, the
interpreter's outer context is replaced by it and `Continue` is returned;
otherwise the outer context is left as it was and a multi-context result
holding all outputs is returned.  The returned pair is (outer context after
the call, execution result); `none` if the loop ran out of fuel. -/
def execute (ops : List (ContextState → List ContextState)) (fuel : Nat)
    (interpCtx : Context) : Option (Context × ExecResult) :=
  match executeLoop ops fuel [⟨interpCtx, [], 0⟩] [] with
  | none => none
  | some [c] => some (c, .Continue)
  | some output => some (interpCtx, .Multiple output)

end TransformBuilder

/-- `llvm::APInt`: a fixed-width two's-complement integer, represented by its
width and its raw bit pattern (a natural number below `2 ^ width`). -/
structure APInt where
  width : Nat
  val : Nat
deriving DecidableEq, Repr

/-- The signed (two's-complement) reading of a bit pattern. -/
def APInt.toSInt (a : APInt) : Int :=
  if a.val < 2 ^ (a.width - 1) then (a.val : Int) else (a.val : Int) - 2 ^ a.width

/-- Encode an integer into `w`-bit two's-complement. -/
def APInt.ofInt (w : Nat) (x : Int) : APInt :=
  ⟨w, (x % ((2 : Int) ^ w)).toNat⟩

/-- The sign-bias of a bit pattern: adding `2 ^ (w - 1)` modulo `2 ^ w` turns
two's-complement order into unsigned order; `llvm::APInt`'s signed
comparisons are equivalent to comparing biased patterns. -/
def APInt.biased (a : APInt) : Nat :=
  (a.val + 2 ^ (a.width - 1)) % 2 ^ a.width

/-- `llvm::APInt::slt` (bit-level, via the sign bias). -/
def APInt.slt (a b : APInt) : Bool := a.biased < b.biased

/-- `llvm::APInt::sle`. -/
def APInt.sle (a b : APInt) : Bool := a.biased ≤ b.biased

/-- `llvm::APInt::sgt`. -/
def APInt.sgt (a b : APInt) : Bool := b.biased < a.biased

/-- `llvm::APInt::sge`. -/
def APInt.sge (a b : APInt) : Bool := b.biased ≤ a.biased

/-- `llvm::APInt::ult`. -/
def APInt.ult (a b : APInt) : Bool := a.val < b.val

/-- `llvm::APInt::ule`. -/
def APInt.ule (a b : APInt) : Bool := a.val ≤ b.val

/-- `llvm::APInt::ugt`. -/
def APInt.ugt (a b : APInt) : Bool := b.val < a.val

/-- `llvm::APInt::uge`. -/
def APInt.uge (a b : APInt) : Bool := b.val ≤ a.val

/-- `ICmpOpcode` (`caffeine/IR`): the ten integer comparison predicates. -/
inductive ICmpOpcode
  | EQ
  | NE
  | SGE
  | SGT
  | SLE
  | SLT
  | UGE
  | UGT
  | ULE
  | ULT
deriving DecidableEq, Repr

/-- `constant_int_compare(cmp, lhs, rhs)` (`src/IR/Operation.h`): the dispatch
table used when folding an `icmp` of two constant integers. -/
def constant_int_compare (cmp : ICmpOpcode) (lhs rhs : APInt) : Bool :=
  match cmp with
  | .EQ => lhs.val == rhs.val
  | .NE => lhs.val != rhs.val
  | .SGE => lhs.sge rhs
  | .SGT => lhs.sgt rhs
  | .SLE => lhs.sle rhs
  | .SLT => lhs.slt rhs
  | .UGE => lhs.uge rhs
  | .UGT => lhs.ugt rhs
  | .ULE => lhs.ule rhs
  | .ULT => lhs.ult rhs

/-- The sort of a Z3 expression as far as the translation layer inspects it:
`is_bool` or a bit-vector of some width. -/
inductive Z3Sort
  | boolS
  | bvS (w : Nat)
deriving DecidableEq, Repr

/-- Z3 expressions as built by `Z3OpVisitor` (syntax, so that the theorem can
speak about which operator was emitted): bit-vector literals and constants,
`bv_to_bool`'s `expr == 1`, `bool_to_bv`'s `ite(expr, #b1, #b0)`, the boolean
and bit-wise connectives, and comparisons. -/
inductive Z3Expr
  | bvVal (w v : Nat)
  | bvConst (w name : Nat)
  | eqOne (e : Z3Expr)
  | iteBit (c : Z3Expr)
  | boolAnd (a b : Z3Expr)
  | boolOr (a b : Z3Expr)
  | boolNot (a : Z3Expr)
  | bvAnd (a b : Z3Expr)
  | bvOr (a b : Z3Expr)
  | bvNot (a : Z3Expr)
  | cmp (c : ICmpOpcode) (a b : Z3Expr)
deriving DecidableEq, Repr

/-- The sort of a Z3 expression. -/
def Z3Expr.sort : Z3Expr → Z3Sort
  | .bvVal w _ => .bvS w
  | .bvConst w _ => .bvS w
  | .eqOne _ => .boolS
  | .iteBit _ => .bvS 1
  | .boolAnd _ _ => .boolS
  | .boolOr _ _ => .boolS
  | .boolNot _ => .boolS
  | .cmp _ _ _ => .boolS
  | .bvAnd a _ => a.sort
  | .bvOr a _ => a.sort
  | .bvNot a => a.sort

/-- `expr.is_bool()`. -/
def Z3Expr.is_bool (e : Z3Expr) : Bool := e.sort == .boolS

/-- `normalize_to_bool` (`src/Solver/Z3Solver.cpp`): convert 1-bit bit-vectors
to booleans via `bv_to_bool` (`expr == 1`); leave everything else alone. -/
def normalize_to_bool (e : Z3Expr) : Z3Expr :=
  if e.sort = .bvS 1 then .eqOne e else e

/-- `normalize_to_bv` (`src/Solver/Z3Solver.cpp`): convert booleans to 1-bit
bit-vectors via `bool_to_bv` (`ite(expr, #b1, #b0)`); leave everything else
alone. -/
def normalize_to_bv (e : Z3Expr) : Z3Expr :=
  if e.sort = .boolS then .iteBit e else e

/-- The fragment of the symbolic IR the embedded visitor covers: constant
ints, named symbolic constants, `icmp`, `and`, `or`, `not`.  All of these
have integer type. -/
inductive IRTerm
  | constInt (w v : Nat)
  | symbol (w name : Nat)
  | icmp (c : ICmpOpcode) (a b : IRTerm)
  | andOp (a b : IRTerm)
  | orOp (a b : IRTerm)
  | notOp (a : IRTerm)
deriving DecidableEq, Repr

/-- The integer bit-width of a term, or `none` when ill-typed.  Construction
functions of the IR validate that binop operand bit-widths match, so the
visitor is only ever invoked on terms with a width. -/
def IRTerm.ty : IRTerm → Option Nat
  | .constInt w _ => some w
  | .symbol w _ => some w
  | .icmp _ a b =>
    match a.ty, b.ty with
    | some wa, some wb => if wa = wb then some 1 else none
    | _, _ => none
  | .andOp a b =>
    match a.ty, b.ty with
    | some wa, some wb => if wa = wb then some wa else none
    | _, _ => none
  | .orOp a b =>
    match a.ty, b.ty with
    | some wa, some wb => if wa = wb then some wa else none
    | _, _ => none
  | .notOp a => a.ty

/-- `Z3OpVisitor::visit` (`src/Solver/Z3Solver.cpp`) on the embedded fragment
(the memoization cache only avoids recomputation and does not change the
produced expression): `visitConstantInt` emits a bit-vector literal,
`visitConstant` a bit-vector constant, `visitICmp` normalizes both operands
to bit-vectors and emits the named predicate, `visitAnd`/`visitOr` normalize
both operands to booleans and emit the boolean connective when the left side
is boolean, the bit-wise operator otherwise, and `visitNot` does the same for
negation. -/
def visitZ3 : IRTerm → Z3Expr
  | .constInt w v => .bvVal w v
  | .symbol w n => .bvConst w n
  | .icmp c a b =>
    .cmp c (normalize_to_bv (visitZ3 a)) (normalize_to_bv (visitZ3 b))
  | .andOp a b =>
    let lhs := normalize_to_bool (visitZ3 a)
    let rhs := normalize_to_bool (visitZ3 b)
    if lhs.sort = .boolS then .boolAnd lhs rhs else .bvAnd lhs rhs
  | .orOp a b =>
    let lhs := normalize_to_bool (visitZ3 a)
    let rhs := normalize_to_bool (visitZ3 b)
    if lhs.sort = .boolS then .boolOr lhs rhs else .bvOr lhs rhs
  | .notOp a =>
    let e := normalize_to_bool (visitZ3 a)
    if e.sort = .boolS then .boolNot e else .bvNot e

/-- A Z3 floating-point numeral as observed through the numeral API used by
`z3_to_apfloat`: the sort's exponent/significand bit counts, the NaN and
infinity classification, the sign, the full significand (including the
leading bit) and the biased exponent (`Z3_fpa_get_numeral_exponent_int64`
with `biased = true`). -/
structure Z3FpaNumeral where
  ebits : Nat
  sbits : Nat
  isNaN : Bool
  isInf : Bool
  sign : Bool
  significand : Nat
  exponent : Int
deriving DecidableEq, Repr

/-- `z3_to_apfloat` (`src/Solver/Z3Solver.cpp`), returning the IEEE-754 bit
pattern (width `ebits + sbits`) of the produced float: read the significand
(an `sbits`-wide `APInt`); if the numeral is a NaN whose reported significand
is 0 replace it by 1 (Z3 reports significand 0 for NaNs, which would
otherwise decode as an infinity); strip the leading bit by truncating to
`sbits - 1` bits; the exponent is hardcoded to all-ones for NaN and infinity
and read (biased) from the numeral otherwise; the sign is forced to 0 for NaN
and read from the numeral otherwise; finally assemble
`mantissa | (exponent << (sbits - 1))` and set the sign bit if needed. -/
def z3_to_apfloat (x : Z3FpaNumeral) : Nat :=
  let mantissaFull := x.significand % 2 ^ x.sbits
  let mantissaFixed := if x.isNaN ∧ mantissaFull = 0 then 1 else mantissaFull
  let mantissa := mantissaFixed % 2 ^ (x.sbits - 1)
  let exponent : Nat :=
    if x.isNaN then 2 ^ x.ebits - 1
    else if x.isInf then 2 ^ x.ebits - 1
    else (x.exponent % ((2 : Int) ^ x.ebits)).toNat
  let sign : Bool := if x.isNaN then false else x.sign
  let total := mantissa + exponent * 2 ^ (x.sbits - 1)
  if sign then total + 2 ^ (x.ebits + x.sbits - 1) else total

/-- The mantissa field (low `sbits - 1` bits) of an IEEE-754 bit pattern. -/
def FloatBits.mantissaField (sbits pat : Nat) : Nat :=
  pat % 2 ^ (sbits - 1)

/-- The exponent field (`ebits` bits above the mantissa) of an IEEE-754 bit
pattern. -/
def FloatBits.exponentField (ebits sbits pat : Nat) : Nat :=
  (pat / 2 ^ (sbits - 1)) % 2 ^ ebits

/-- The sign bit (topmost of `ebits + sbits` bits) of an IEEE-754 bit
pattern. -/
def FloatBits.signBit (ebits sbits pat : Nat) : Nat :=
  pat / 2 ^ (ebits + sbits - 1)

/-- The value a Z3 model assigns to a constant: a bit-vector numeral, a
floating-point numeral, or a byte array (indexed by an address-width
bit-vector). -/
inductive Z3Val
  | bv (w v : Nat)
  | fpa (x : Z3FpaNumeral)
  | array (idxWidth : Nat) (f : Nat → Nat)

/-- The abstract values produced by model decoding (`Value`): integers,
floats (by bit pattern) and byte arrays. -/
inductive CValue
  | intV (w v : Nat)
  | floatV (ebits sbits pattern : Nat)
  | arrayV (idxWidth : Nat) (bytes : List Nat)

/-- `Z3Model::lookup(symbol, size)` (`src/Solver/Z3Solver.cpp`): look the
symbol up in the constant map (symbols are abstracted to their ids, and the
map composed with model evaluation to the numeral oracle `constants`); decode
a bit-vector via `z3_to_apint`, a float via `z3_to_apfloat`, and an array —
for which `size` is required — by reading bytes `0 .. size - 1` via repeated
`select`.  Returns `none` (`Value()`) when the symbol is unbound. -/
def Z3Model.lookup (constants : Nat → Option Z3Val) (symbol : Nat)
    (size : Option Nat) : Option CValue :=
  match constants symbol with
  | none => none
  | some (.bv w v) => some (.intV w v)
  | some (.fpa x) => some (.floatV x.ebits x.sbits (z3_to_apfloat x))
  | some (.array idxWidth f) =>
    match size with
    | none => none
    | some sz => some (.arrayV idxWidth ((List.range sz).map f))

/-- A solver oracle that always answers Unknown to feasibility checks. -/
def unknownCheckO : List Assertion → Assertion → SKind := fun _ _ => .Unknown

/-- A solver oracle that always answers Unknown to model queries. -/
def unknownResolveO : List Assertion → Assertion → SolverResult := fun _ _ => .unknown

/-- A heap-resolution oracle returning a single candidate allocation. -/
def oneCandidate : Context → Pointer → List RPtr := fun _ _ => [⟨0, 0, 0⟩]

/-- A concrete transform-builder state: empty path condition, the SSA
environment binding operation 0 to an unresolved pointer at address term 5,
instruction pointer already advanced to 1. -/
def sampleState : TransformBuilder.ContextState :=
  ⟨⟨[]⟩, [(0, .pointer (.unresolved 5))], 1⟩

/-- A concrete well-typed 1-bit conjunction: `and (icmp eq c8 c8) true`. -/
def sampleAndLhs : IRTerm := .icmp .EQ (.constInt 8 3) (.constInt 8 3)

/-- The right operand of the sample conjunction: the 1-bit constant 1. -/
def sampleAndRhs : IRTerm := .constInt 1 1

/-- A concrete single-precision NaN numeral as Z3 reports it (significand 0,
which the decoder must fix up). -/
def nanNumeral : Z3FpaNumeral :=
  { ebits := 8, sbits := 24, isNaN := true, isInf := false, sign := false,
    significand := 0, exponent := 0 }

/-- A constant map binding every symbol to the sample NaN numeral. -/
def nanConstants : Nat → Option Z3Val := fun _ => some (.fpa nanNumeral)

section Lemmas

/-- Zipping `n` copies of `c` with a length-`n` list and mapping is the same
as mapping over the list with `c` fixed. -/
theorem zip_replicate_map {α β γ : Type} (c : β) (f : β × α → γ) :
    ∀ l : List α, ((List.replicate l.length c).zip l).map f =
      l.map (fun a => f (c, a))
  | [] => rfl
  | a :: l => by
    simp only [List.length_cons, List.replicate_succ, List.zip_cons_cons,
      List.map_cons, List.map]
    exact congrArg _ (zip_replicate_map c f l)

/-- An assertion that is constantly false is not constantly true. -/
theorem is_constant_value_exclusive (a : Assertion)
    (h : a.is_constant_value false = true) : a.is_constant_value true = false := by
  cases a <;> simp_all [Assertion.is_constant_value]

/-- Characterization of the forking resolve transform when the pointer
argument looks up to a scalar pointer: the emitted events come from
`log_failure` exactly when the feasibility check of the negated validity
assertion is SAT, and the pushed states are one `forkedState` per resolution
candidate unless the check was SAT and `die_on_failure` was set. -/
theorem resolveStep_eq (checkO : List Assertion → Assertion → SKind)
    (resolveO : List Assertion → Assertion → SolverResult)
    (ptrResolve : Context → Pointer → List RPtr)
    (storeSize : Nat) (die : Bool) (parg : Nat)
    (state : TransformBuilder.ContextState) (u : Pointer)
    (hlook : state.lookupValue parg = some (LLVMValue.pointer u)) :
    TransformBuilder.resolveStep checkO resolveO ptrResolve storeSize die parg
        state =
      some
        ((if checkO state.ctx.assertions
              (.neg (MultiHeap.check_valid u storeSize)) = SKind.SAT then
            InterpreterContext.log_failure resolveO state.ctx
              (.neg (MultiHeap.check_valid u storeSize))
              "invalid pointer load/store"
          else []),
         if checkO state.ctx.assertions
              (.neg (MultiHeap.check_valid u storeSize)) = SKind.SAT ∧
              die = true then []
         else (ptrResolve state.ctx u).map
           (TransformBuilder.forkedState state u storeSize)) := by
  unfold TransformBuilder.resolveStep
  rw [hlook]
  simp only [Context.fork, zip_replicate_map]
  by_cases h : checkO state.ctx.assertions
      (.neg (MultiHeap.check_valid u storeSize)) = SKind.SAT ∧ die = true
  · rw [if_pos h, if_pos h]
  · rw [if_neg h, if_neg h]
    rfl

/-- Unfolding of `forkedState` into an explicit record: the forked copy's
path condition is the original one extended with the candidate's in-bounds
assertion and then, exactly when the source pointer was unresolved, the
backprop equality; the SSA environment gains the binding of the result id to
the wrapped candidate pointer; the instruction pointer is unchanged. -/
theorem forkedState_explicit (state : TransformBuilder.ContextState)
    (u : Pointer) (storeSize : Nat) (r : RPtr) :
    TransformBuilder.forkedState state u storeSize r =
      { ctx := ⟨(state.ctx.assertions ++
            [Assertion.inbounds r.heap r.alloc r.offset storeSize]) ++
            (if u.is_resolved then [] else [Assertion.ptrEq u r])⟩,
        values := (state.inst - 1,
          LLVMValue.pointer (Pointer.resolved r)) :: state.values,
        inst := state.inst } := by
  unfold TransformBuilder.forkedState Context.add Context.backprop
  by_cases hres : u.is_resolved
  · simp [hres, TransformBuilder.ContextState.fork,
      TransformBuilder.ContextState.insertValue, Assertion.is_constant_value]
  · simp [hres, TransformBuilder.ContextState.fork,
      TransformBuilder.ContextState.insertValue, Assertion.is_constant_value]

end Lemmas

/-- Claim C4: for every assertion list and extra assertion, the solver
facade's `check` returns SAT without querying the backend when the extra
assertion is trivially true and the list's unproven suffix is empty, and
returns UNSAT without querying the backend when the extra assertion is
trivially false. -/
theorem solver_check_fast_paths (backend : List Assertion → SolverResult)
    (al : AssertionList) (extra : Assertion) :
    (extra.is_constant_value true = true → al.unproven = [] →
        Z3Solver.check backend al extra = (SKind.SAT, al, false)) ∧
    (extra.is_constant_value false = true →
        Z3Solver.check backend al extra = (SKind.UNSAT, al, false)) := by
  constructor
  · intro ht hu
    simp [Z3Solver.check, ht, hu]
  · intro hf
    have ht := is_constant_value_exclusive extra hf
    simp [Z3Solver.check, ht, hf]

/-- Witness for C4 at concrete inputs. -/
theorem solver_check_fast_paths_witness :
    Z3Solver.check (fun _ => SolverResult.unknown) ⟨[], 0⟩ Assertion.tt =
      (SKind.SAT, ⟨[], 0⟩, false) ∧
    Z3Solver.check (fun _ => SolverResult.unknown) ⟨[Assertion.sym 0], 0⟩
        Assertion.ff = (SKind.UNSAT, ⟨[Assertion.sym 0], 0⟩, false) :=
  ⟨(solver_check_fast_paths _ _ _).1 rfl rfl,
   (solver_check_fast_paths _ _ _).2 rfl⟩

/-- Claim C9: for every assertion list and extra assertion, after
`Z3Solver::check` returns, the assertion list is unchanged — the extra
assertion temporarily inserted is removed by restoring the checkpoint taken
at entry, on every return path including the early SAT return.  (The
hypothesis is the structural invariant that the proven prefix never exceeds
the list.) -/
theorem solver_check_preserves_assertions
    (backend : List Assertion → SolverResult) (al : AssertionList)
    (extra : Assertion) (hp : al.proven ≤ al.list.length) :
    (Z3Solver.check backend al extra).2.1 = al := by
  obtain ⟨l, p⟩ := al
  have key : (AssertionList.insert ⟨l, p⟩ extra).restore
      (AssertionList.checkpoint ⟨l, p⟩) = ⟨l, p⟩ := by
    simp only [AssertionList.insert, AssertionList.checkpoint,
      AssertionList.restore]
    split
    · simp only [List.take_length]
      exact congrArg _ (Nat.min_eq_left hp)
    · simp only [List.take_left]
      exact congrArg _ (Nat.min_eq_left hp)
  unfold Z3Solver.check
  split
  · rfl
  split
  · rfl
  dsimp only
  split
  · exact key
  · exact key

/-- Witness for C9 at concrete inputs. -/
theorem solver_check_preserves_assertions_witness :
    (Z3Solver.check (fun _ => SolverResult.unknown) ⟨[Assertion.sym 0], 0⟩
        (Assertion.sym 1)).2.1 = ⟨[Assertion.sym 0], 0⟩ :=
  solver_check_preserves_assertions _ _ _ (by decide)

/-- Claim C10: `InterpreterContext::log_failure` first re-resolves the
failing assertion against the path condition asking for a model; if the
result is not SAT it does nothing (neither the failure logger nor the policy
is invoked), and only if the result is SAT does it log the failure with the
obtained model and then call `on_path_complete` with outcome `Fail` and that
assertion. -/
theorem log_failure_requires_sat
    (resolveO : List Assertion → Assertion → SolverResult) (ctx : Context)
    (a : Assertion) (msg : String) :
    ((resolveO ctx.assertions a).kind ≠ SKind.SAT →
        InterpreterContext.log_failure resolveO ctx a msg = []) ∧
    (∀ m, resolveO ctx.assertions a = .sat m →
        InterpreterContext.log_failure resolveO ctx a msg =
          [Event.failureLogged m ctx a msg,
           Event.pathComplete ctx Outcome.Fail a]) := by
  constructor
  · intro h
    unfold InterpreterContext.log_failure
    cases hr : resolveO ctx.assertions a with
    | sat m => exact absurd (by rw [hr]; rfl) h
    | unsat => rfl
    | unknown => rfl
  · intro m hm
    unfold InterpreterContext.log_failure
    rw [hm]

/-- Witness for C10 at concrete inputs. -/
theorem log_failure_requires_sat_witness :
    InterpreterContext.log_failure (fun _ _ => SolverResult.unsat) ⟨[]⟩
        Assertion.tt "x" = [] ∧
    InterpreterContext.log_failure (fun _ _ => SolverResult.sat 7) ⟨[]⟩
        Assertion.tt "x" =
      [Event.failureLogged 7 ⟨[]⟩ Assertion.tt "x",
       Event.pathComplete ⟨[]⟩ Outcome.Fail Assertion.tt] :=
  ⟨(log_failure_requires_sat _ _ _ _).1 (by decide),
   (log_failure_requires_sat _ _ _ _).2 7 rfl⟩

/-- Claim C5: when `TransformBuilder::execute` finishes with exactly one
output context, the interpreter's outer context is replaced by that output
and the `Continue` result is returned; with any other number of outputs the
outer context is left unreplaced and a multi-context result holding all
outputs is returned. -/
theorem execute_output_dispatch
    (ops : List (TransformBuilder.ContextState →
      List TransformBuilder.ContextState))
    (fuel : Nat) (interpCtx : Context) (output : List Context)
    (h : TransformBuilder.executeLoop ops fuel [⟨interpCtx, [], 0⟩] [] =
      some output) :
    (∀ c, output = [c] →
        TransformBuilder.execute ops fuel interpCtx =
          some (c, TransformBuilder.ExecResult.Continue)) ∧
    (output.length ≠ 1 →
        TransformBuilder.execute ops fuel interpCtx =
          some (interpCtx, TransformBuilder.ExecResult.Multiple output)) := by
  constructor
  · intro c hc
    subst hc
    unfold TransformBuilder.execute
    rw [h]
  · intro hlen
    unfold TransformBuilder.execute
    rw [h]
    match output, hlen with
    | [], _ => rfl
    | [c], hlen => exact absurd rfl hlen
    | c₁ :: c₂ :: rest, _ => rfl

/-- Witness for C5 at concrete inputs: an empty pipeline produces one output
and continues; a pipeline whose single operation drops the state produces
zero outputs and yields a multi-context result. -/
theorem execute_output_dispatch_witness :
    TransformBuilder.execute [] 2 ⟨[]⟩ =
      some (⟨[]⟩, TransformBuilder.ExecResult.Continue) ∧
    TransformBuilder.execute [fun _ => []] 2 ⟨[]⟩ =
      some (⟨[]⟩, TransformBuilder.ExecResult.Multiple []) :=
  ⟨(execute_output_dispatch [] 2 ⟨[]⟩ [⟨[]⟩] rfl).1 ⟨[]⟩ rfl,
   (execute_output_dispatch [fun _ => []] 2 ⟨[]⟩ [] rfl).2 (by decide)⟩

/-- Claim C1: in the forking resolve primitive, after the heap resolves the
pointer to N candidates, the context is forked into exactly N copies, one per
candidate (the pushed list is the candidate list mapped); each copy's path
condition gains that candidate's `check_inbounds` assertion; if the source
pointer was unresolved the `backprop` equality for the candidate follows; and
the operation's result id (`inst - 1`) is bound to the `LLVMValue` wrapping
that candidate before the state is pushed. -/
theorem resolve_forks_one_per_candidate
    (checkO : List Assertion → Assertion → SKind)
    (resolveO : List Assertion → Assertion → SolverResult)
    (ptrResolve : Context → Pointer → List RPtr)
    (storeSize : Nat) (die : Bool) (parg : Nat)
    (state : TransformBuilder.ContextState) (u : Pointer)
    (hlook : state.lookupValue parg = some (LLVMValue.pointer u))
    (hcont : ¬(checkO state.ctx.assertions
        (.neg (MultiHeap.check_valid u storeSize)) = SKind.SAT ∧
        die = true)) :
    ∃ ev, TransformBuilder.resolveStep checkO resolveO ptrResolve storeSize
        die parg state =
      some (ev, (ptrResolve state.ctx u).map (fun r =>
        { ctx := ⟨(state.ctx.assertions ++
              [Assertion.inbounds r.heap r.alloc r.offset storeSize]) ++
              (if u.is_resolved then [] else [Assertion.ptrEq u r])⟩,
          values := (state.inst - 1,
            LLVMValue.pointer (Pointer.resolved r)) :: state.values,
          inst := state.inst })) := by
  have heq := resolveStep_eq checkO resolveO ptrResolve storeSize die parg
    state u hlook
  rw [if_neg hcont] at heq
  refine ⟨_, heq.trans (congrArg _ (congrArg _
    (List.map_congr_left fun r _ => forkedState_explicit state u storeSize r)))⟩

/-- Witness for C1 at concrete inputs: one candidate, an unresolved source
pointer, a non-SAT feasibility verdict. -/
theorem resolve_forks_one_per_candidate_witness :
    ∃ ev, TransformBuilder.resolveStep unknownCheckO unknownResolveO
        oneCandidate 4 false 0 sampleState =
      some (ev, (oneCandidate sampleState.ctx (Pointer.unresolved 5)).map
        (fun r =>
          { ctx := ⟨(sampleState.ctx.assertions ++
                [Assertion.inbounds r.heap r.alloc r.offset 4]) ++
                (if (Pointer.unresolved 5).is_resolved then []
                 else [Assertion.ptrEq (Pointer.unresolved 5) r])⟩,
            values := (sampleState.inst - 1,
              LLVMValue.pointer (Pointer.resolved r)) :: sampleState.values,
            inst := sampleState.inst })) :=
  resolve_forks_one_per_candidate unknownCheckO unknownResolveO oneCandidate
    4 false 0 sampleState (Pointer.unresolved 5) rfl (by decide)

/-- Claim C2: in the resolve primitive, if the feasibility check of the
negated validity assertion returns SAT, a failure with message
"invalid pointer load/store" is logged (the `log_failure` re-resolution is
SAT with model `m`); with `die_on_failure` true the state is dropped without
pushing any successor, while with `die_on_failure` false the in-bounds
successors are still forked. -/
theorem resolve_invalid_pointer_failure
    (checkO : List Assertion → Assertion → SKind)
    (resolveO : List Assertion → Assertion → SolverResult)
    (ptrResolve : Context → Pointer → List RPtr)
    (storeSize : Nat) (die : Bool) (parg : Nat)
    (state : TransformBuilder.ContextState) (u : Pointer) (m : Nat)
    (hlook : state.lookupValue parg = some (LLVMValue.pointer u))
    (hsat : checkO state.ctx.assertions
      (.neg (MultiHeap.check_valid u storeSize)) = SKind.SAT)
    (hmodel : resolveO state.ctx.assertions
      (.neg (MultiHeap.check_valid u storeSize)) = SolverResult.sat m) :
    (die = true →
        TransformBuilder.resolveStep checkO resolveO ptrResolve storeSize die
            parg state =
          some ([Event.failureLogged m state.ctx
                   (.neg (MultiHeap.check_valid u storeSize))
                   "invalid pointer load/store",
                 Event.pathComplete state.ctx Outcome.Fail
                   (.neg (MultiHeap.check_valid u storeSize))], [])) ∧
    (die = false →
        TransformBuilder.resolveStep checkO resolveO ptrResolve storeSize die
            parg state =
          some ([Event.failureLogged m state.ctx
                   (.neg (MultiHeap.check_valid u storeSize))
                   "invalid pointer load/store",
                 Event.pathComplete state.ctx Outcome.Fail
                   (.neg (MultiHeap.check_valid u storeSize))],
            (ptrResolve state.ctx u).map
              (TransformBuilder.forkedState state u storeSize))) := by
  have heq := resolveStep_eq checkO resolveO ptrResolve storeSize die parg
    state u hlook
  rw [if_pos hsat] at heq
  unfold InterpreterContext.log_failure at heq
  rw [hmodel] at heq
  constructor
  · intro hdie
    subst hdie
    rw [if_pos ⟨hsat, rfl⟩] at heq
    exact heq
  · intro hdie
    subst hdie
    rw [if_neg (fun h => Bool.false_ne_true h.2)] at heq
    exact heq

/-- Witness for C2 at concrete inputs: a SAT feasibility verdict, a SAT
re-resolution with model 3, and `die_on_failure = true` (no successors). -/
theorem resolve_invalid_pointer_failure_witness :
    TransformBuilder.resolveStep (fun _ _ => SKind.SAT)
        (fun _ _ => SolverResult.sat 3) oneCandidate 4 true 0 sampleState =
      some ([Event.failureLogged 3 sampleState.ctx
               (.neg (MultiHeap.check_valid (Pointer.unresolved 5) 4))
               "invalid pointer load/store",
             Event.pathComplete sampleState.ctx Outcome.Fail
               (.neg (MultiHeap.check_valid (Pointer.unresolved 5) 4))],
        []) :=
  (resolve_invalid_pointer_failure (fun _ _ => SKind.SAT)
    (fun _ _ => SolverResult.sat 3) oneCandidate 4 true 0 sampleState
    (Pointer.unresolved 5) 3 rfl rfl rfl).1 rfl

/-- Counterexample to C3 as stated: a concrete state where the feasibility
check of the negated validity assertion yields Unknown, yet the resolve
primitive logs no failure at all (the emitted event list is empty) and simply
forks the in-bounds successor. -/
theorem resolve_unknown_logs_no_failure_cex :
    unknownCheckO sampleState.ctx.assertions
        (.neg (MultiHeap.check_valid (Pointer.unresolved 5) 4)) =
      SKind.Unknown ∧
    TransformBuilder.resolveStep unknownCheckO unknownResolveO oneCandidate 4
        false 0 sampleState =
      some ([], [TransformBuilder.forkedState sampleState
        (Pointer.unresolved 5) 4 ⟨0, 0, 0⟩]) := by
  constructor
  · rfl
  · rfl

/-- Claim C3 (amended): when the solver returns Unknown for the
invalid-pointer check, the engine does not report a failure — only a SAT
verdict triggers the failure report — and execution proceeds to fork the
in-bounds successors. -/
theorem resolve_unknown_no_failure
    (checkO : List Assertion → Assertion → SKind)
    (resolveO : List Assertion → Assertion → SolverResult)
    (ptrResolve : Context → Pointer → List RPtr)
    (storeSize : Nat) (die : Bool) (parg : Nat)
    (state : TransformBuilder.ContextState) (u : Pointer)
    (hlook : state.lookupValue parg = some (LLVMValue.pointer u))
    (hunk : checkO state.ctx.assertions
      (.neg (MultiHeap.check_valid u storeSize)) = SKind.Unknown) :
    TransformBuilder.resolveStep checkO resolveO ptrResolve storeSize die parg
        state =
      some ([], (ptrResolve state.ctx u).map
        (TransformBuilder.forkedState state u storeSize)) := by
  have heq := resolveStep_eq checkO resolveO ptrResolve storeSize die parg
    state u hlook
  have hne : ¬(checkO state.ctx.assertions
      (.neg (MultiHeap.check_valid u storeSize)) = SKind.SAT) := by
    rw [hunk]
    decide
  rw [if_neg hne, if_neg (fun h => hne h.1)] at heq
  exact heq

/-- Witness for the amended C3 at concrete inputs. -/
theorem resolve_unknown_no_failure_witness :
    TransformBuilder.resolveStep unknownCheckO unknownResolveO oneCandidate 4
        false 0 sampleState =
      some ([], (oneCandidate sampleState.ctx (Pointer.unresolved 5)).map
        (TransformBuilder.forkedState sampleState (Pointer.unresolved 5) 4)) :=
  resolve_unknown_no_failure unknownCheckO unknownResolveO oneCandidate 4
    false 0 sampleState (Pointer.unresolved 5) rfl rfl

/-- The sign-bias of a `w`-bit pattern, written without the modulus: patterns
below `2 ^ (w - 1)` (non-negative values) move up by the bias, the rest
(negative values) move down. -/
theorem biased_spec (w a : Nat) (hw : 0 < w) (ha : a < 2 ^ w) :
    APInt.biased ⟨w, a⟩ =
      if a < 2 ^ (w - 1) then a + 2 ^ (w - 1) else a - 2 ^ (w - 1) := by
  obtain ⟨k, rfl⟩ : ∃ k, w = k + 1 := ⟨w - 1, (Nat.succ_pred_eq_of_pos hw).symm⟩
  unfold APInt.biased
  simp only [Nat.add_sub_cancel]
  have h2 : 2 ^ (k + 1) = 2 ^ k + 2 ^ k := by rw [pow_succ]; ring
  by_cases hlt : a < 2 ^ k
  · rw [if_pos hlt, Nat.mod_eq_of_lt (by omega)]
  · rw [if_neg hlt]
    have hsplit : a + 2 ^ k = (a - 2 ^ k) + 1 * 2 ^ (k + 1) := by omega
    rw [hsplit, Nat.add_mul_mod_self_right, Nat.mod_eq_of_lt (by omega)]

/-- Comparing sign-biased bit patterns is comparing the two's-complement
readings. -/
theorem biased_lt_iff (w a b : Nat) (hw : 0 < w) (ha : a < 2 ^ w)
    (hb : b < 2 ^ w) :
    (APInt.biased ⟨w, a⟩ < APInt.biased ⟨w, b⟩) ↔
      APInt.toSInt ⟨w, a⟩ < APInt.toSInt ⟨w, b⟩ := by
  rw [biased_spec w a hw ha, biased_spec w b hw hb]
  unfold APInt.toSInt
  obtain ⟨k, rfl⟩ : ∃ k, w = k + 1 := ⟨w - 1, (Nat.succ_pred_eq_of_pos hw).symm⟩
  simp only [Nat.add_sub_cancel]
  have hpow : ((2 : Int) ^ (k + 1)) = ((2 ^ (k + 1) : Nat) : Int) := by
    push_cast
    ring
  rw [hpow]
  have h2 : (2 : Nat) ^ (k + 1) = 2 ^ k + 2 ^ k := by rw [pow_succ]; ring
  rw [h2] at ha hb ⊢
  by_cases h1 : a < 2 ^ k <;> by_cases hb1 : b < 2 ^ k <;>
    simp only [h1, hb1, if_true, if_false] <;> omega

/-- The `≤` version of `biased_lt_iff`. -/
theorem biased_le_iff (w a b : Nat) (hw : 0 < w) (ha : a < 2 ^ w)
    (hb : b < 2 ^ w) :
    (APInt.biased ⟨w, a⟩ ≤ APInt.biased ⟨w, b⟩) ↔
      APInt.toSInt ⟨w, a⟩ ≤ APInt.toSInt ⟨w, b⟩ := by
  rw [← Nat.not_lt, ← not_lt]
  exact not_congr (biased_lt_iff w b a hw hb ha)

/-- Claim C6: for every pair of constant integers of equal bit-width and
every icmp predicate, constant comparison folds to the boolean of the
predicate table: EQ/NE are bit-equality, the U-prefixed predicates compare
the raw patterns as unsigned integers, and the S-prefixed predicates compare
the two's-complement signed readings. -/
theorem constant_int_compare_table (w a b : Nat) (hw : 0 < w)
    (ha : a < 2 ^ w) (hb : b < 2 ^ w) :
    (constant_int_compare .EQ ⟨w, a⟩ ⟨w, b⟩ = decide (a = b)) ∧
    (constant_int_compare .NE ⟨w, a⟩ ⟨w, b⟩ = decide (a ≠ b)) ∧
    (constant_int_compare .ULT ⟨w, a⟩ ⟨w, b⟩ = decide (a < b)) ∧
    (constant_int_compare .ULE ⟨w, a⟩ ⟨w, b⟩ = decide (a ≤ b)) ∧
    (constant_int_compare .UGT ⟨w, a⟩ ⟨w, b⟩ = decide (b < a)) ∧
    (constant_int_compare .UGE ⟨w, a⟩ ⟨w, b⟩ = decide (b ≤ a)) ∧
    (constant_int_compare .SLT ⟨w, a⟩ ⟨w, b⟩ =
      decide (APInt.toSInt ⟨w, a⟩ < APInt.toSInt ⟨w, b⟩)) ∧
    (constant_int_compare .SLE ⟨w, a⟩ ⟨w, b⟩ =
      decide (APInt.toSInt ⟨w, a⟩ ≤ APInt.toSInt ⟨w, b⟩)) ∧
    (constant_int_compare .SGT ⟨w, a⟩ ⟨w, b⟩ =
      decide (APInt.toSInt ⟨w, b⟩ < APInt.toSInt ⟨w, a⟩)) ∧
    (constant_int_compare .SGE ⟨w, a⟩ ⟨w, b⟩ =
      decide (APInt.toSInt ⟨w, b⟩ ≤ APInt.toSInt ⟨w, a⟩)) := by
  refine ⟨?_, ?_, rfl, rfl, rfl, rfl, ?_, ?_, ?_, ?_⟩
  · by_cases h : a = b <;> simp [constant_int_compare, h]
  · by_cases h : a = b <;> simp [constant_int_compare, h]
  · exact decide_eq_decide.mpr (biased_lt_iff w a b hw ha hb)
  · exact decide_eq_decide.mpr (biased_le_iff w a b hw ha hb)
  · exact decide_eq_decide.mpr (biased_lt_iff w b a hw hb ha)
  · exact decide_eq_decide.mpr (biased_le_iff w b a hw hb ha)

/-- Witness for C6, including the spec's example
`icmp(slt, const_i32(-1), const_i32(1))`: the 32-bit pattern of −1 is
4294967295, and the fold yields true. -/
theorem constant_int_compare_table_witness :
    ((0 : Nat) < 32 ∧ (4294967295 : Nat) < 2 ^ 32) ∧
    constant_int_compare .SLT ⟨32, 4294967295⟩ ⟨32, 1⟩ =
      decide (APInt.toSInt ⟨32, 4294967295⟩ < APInt.toSInt ⟨32, 1⟩) ∧
    constant_int_compare .SLT (APInt.ofInt 32 (-1)) (APInt.ofInt 32 1) =
      true :=
  ⟨⟨by decide, by decide⟩,
   (constant_int_compare_table 32 4294967295 1 (by decide) (by decide)
     (by decide)).2.2.2.2.2.2.1,
   by decide⟩

/-- The sort of a normalized expression: 1-bit bit-vectors become booleans,
everything else keeps its sort. -/
theorem normalize_sort (e : Z3Expr) :
    (normalize_to_bool e).sort =
      if e.sort = Z3Sort.bvS 1 then Z3Sort.boolS else e.sort := by
  unfold normalize_to_bool
  split
  · rfl
  · rfl

/-- Typing inversion for `icmp`: a well-typed comparison has type `int(1)`. -/
theorem icmp_ty_inv (c : ICmpOpcode) (a b : IRTerm) (w : Nat)
    (ht : (IRTerm.icmp c a b).ty = some w) : w = 1 := by
  cases hta : a.ty with
  | none =>
    simp only [IRTerm.ty, hta] at ht
    exact Option.noConfusion ht
  | some wa =>
    cases htb : b.ty with
    | none =>
      simp only [IRTerm.ty, hta, htb] at ht
      exact Option.noConfusion ht
    | some wb =>
      simp only [IRTerm.ty, hta, htb] at ht
      split at ht
      · exact (Option.some_inj.mp ht).symm
      · exact Option.noConfusion ht

/-- Typing inversion for `and`: both operands have the result's width. -/
theorem andOp_ty_inv (a b : IRTerm) (w : Nat)
    (ht : (IRTerm.andOp a b).ty = some w) :
    a.ty = some w ∧ b.ty = some w := by
  cases hta : a.ty with
  | none =>
    simp only [IRTerm.ty, hta] at ht
    exact Option.noConfusion ht
  | some wa =>
    cases htb : b.ty with
    | none =>
      simp only [IRTerm.ty, hta, htb] at ht
      exact Option.noConfusion ht
    | some wb =>
      simp only [IRTerm.ty, hta, htb] at ht
      split at ht
      · rename_i hww
        injection ht with hw2
        subst hw2
        exact ⟨rfl, congrArg some hww.symm⟩
      · exact Option.noConfusion ht

/-- Typing inversion for `or`: both operands have the result's width. -/
theorem orOp_ty_inv (a b : IRTerm) (w : Nat)
    (ht : (IRTerm.orOp a b).ty = some w) :
    a.ty = some w ∧ b.ty = some w := by
  cases hta : a.ty with
  | none =>
    simp only [IRTerm.ty, hta] at ht
    exact Option.noConfusion ht
  | some wa =>
    cases htb : b.ty with
    | none =>
      simp only [IRTerm.ty, hta, htb] at ht
      exact Option.noConfusion ht
    | some wb =>
      simp only [IRTerm.ty, hta, htb] at ht
      split at ht
      · rename_i hww
        injection ht with hw2
        subst hw2
        exact ⟨rfl, congrArg some hww.symm⟩
      · exact Option.noConfusion ht

/-- Sort of a translated well-typed term after boolean normalization: terms
of type `int(1)` normalize to a boolean Z3 expression; wider terms stay
bit-vectors of their width. -/
theorem normalized_visit_sort (t : IRTerm) :
    ∀ w, t.ty = some w →
      (normalize_to_bool (visitZ3 t)).sort =
        if w = 1 then Z3Sort.boolS else Z3Sort.bvS w := by
  induction t with
  | constInt w0 v =>
    intro w ht
    have hw0 : w0 = w := Option.some_inj.mp ht
    subst hw0
    by_cases h1 : w0 = 1
    · subst h1
      simp [visitZ3, normalize_to_bool, Z3Expr.sort]
    · simp [visitZ3, normalize_to_bool, Z3Expr.sort, h1]
  | symbol w0 n =>
    intro w ht
    have hw0 : w0 = w := Option.some_inj.mp ht
    subst hw0
    by_cases h1 : w0 = 1
    · subst h1
      simp [visitZ3, normalize_to_bool, Z3Expr.sort]
    · simp [visitZ3, normalize_to_bool, Z3Expr.sort, h1]
  | icmp c a b iha ihb =>
    intro w ht
    have hw : w = 1 := icmp_ty_inv c a b w ht
    subst hw
    simp [visitZ3, normalize_to_bool, Z3Expr.sort]
  | andOp a b iha ihb =>
    intro w ht
    obtain ⟨hta, htb⟩ := andOp_ty_inv a b w ht
    have hA := iha w hta
    by_cases h1 : w = 1
    · subst h1
      rw [if_pos rfl] at hA
      simp only [visitZ3]
      rw [if_pos hA, normalize_sort]
      simp [Z3Expr.sort]
    · rw [if_neg h1] at hA
      have hnb : ¬((normalize_to_bool (visitZ3 a)).sort = Z3Sort.boolS) := by
        rw [hA]
        simp
      simp only [visitZ3]
      rw [if_neg hnb, if_neg h1, normalize_sort]
      have hsort : (Z3Expr.bvAnd (normalize_to_bool (visitZ3 a))
          (normalize_to_bool (visitZ3 b))).sort = Z3Sort.bvS w := hA
      rw [hsort, if_neg (by simp [h1])]
  | orOp a b iha ihb =>
    intro w ht
    obtain ⟨hta, htb⟩ := orOp_ty_inv a b w ht
    have hA := iha w hta
    by_cases h1 : w = 1
    · subst h1
      rw [if_pos rfl] at hA
      simp only [visitZ3]
      rw [if_pos hA, normalize_sort]
      simp [Z3Expr.sort]
    · rw [if_neg h1] at hA
      have hnb : ¬((normalize_to_bool (visitZ3 a)).sort = Z3Sort.boolS) := by
        rw [hA]
        simp
      simp only [visitZ3]
      rw [if_neg hnb, if_neg h1, normalize_sort]
      have hsort : (Z3Expr.bvOr (normalize_to_bool (visitZ3 a))
          (normalize_to_bool (visitZ3 b))).sort = Z3Sort.bvS w := hA
      rw [hsort, if_neg (by simp [h1])]
  | notOp a iha =>
    intro w ht
    have hta : a.ty = some w := ht
    have hA := iha w hta
    by_cases h1 : w = 1
    · subst h1
      rw [if_pos rfl] at hA
      simp only [visitZ3]
      rw [if_pos hA, normalize_sort]
      simp [Z3Expr.sort]
    · rw [if_neg h1] at hA
      have hnb : ¬((normalize_to_bool (visitZ3 a)).sort = Z3Sort.boolS) := by
        rw [hA]
        simp
      simp only [visitZ3]
      rw [if_neg hnb, if_neg h1, normalize_sort]
      have hsort : (Z3Expr.bvNot
          (normalize_to_bool (visitZ3 a))).sort = Z3Sort.bvS w := hA
      rw [hsort, if_neg (by simp [h1])]

/-- Claim C7: in the solver translation of an `and` (respectively `or`) term
with well-typed operands, both operands are first normalized to booleans, and
the boolean connective is emitted exactly when both normalized sides are
boolean; otherwise the bit-wise operator is emitted. -/
theorem visit_and_or_bool_emission (a b : IRTerm) (w : Nat)
    (ha : a.ty = some w) (hb : b.ty = some w) :
    ((visitZ3 (.andOp a b) =
        Z3Expr.boolAnd (normalize_to_bool (visitZ3 a))
          (normalize_to_bool (visitZ3 b))) ↔
      ((normalize_to_bool (visitZ3 a)).sort = Z3Sort.boolS ∧
        (normalize_to_bool (visitZ3 b)).sort = Z3Sort.boolS)) ∧
    (¬((normalize_to_bool (visitZ3 a)).sort = Z3Sort.boolS ∧
        (normalize_to_bool (visitZ3 b)).sort = Z3Sort.boolS) →
      visitZ3 (.andOp a b) =
        Z3Expr.bvAnd (normalize_to_bool (visitZ3 a))
          (normalize_to_bool (visitZ3 b))) ∧
    ((visitZ3 (.orOp a b) =
        Z3Expr.boolOr (normalize_to_bool (visitZ3 a))
          (normalize_to_bool (visitZ3 b))) ↔
      ((normalize_to_bool (visitZ3 a)).sort = Z3Sort.boolS ∧
        (normalize_to_bool (visitZ3 b)).sort = Z3Sort.boolS)) ∧
    (¬((normalize_to_bool (visitZ3 a)).sort = Z3Sort.boolS ∧
        (normalize_to_bool (visitZ3 b)).sort = Z3Sort.boolS) →
      visitZ3 (.orOp a b) =
        Z3Expr.bvOr (normalize_to_bool (visitZ3 a))
          (normalize_to_bool (visitZ3 b))) := by
  have hA := normalized_visit_sort a w ha
  have hB := normalized_visit_sort b w hb
  by_cases hw : w = 1
  · subst hw
    rw [if_pos rfl] at hA hB
    have cAnd : visitZ3 (IRTerm.andOp a b) =
        Z3Expr.boolAnd (normalize_to_bool (visitZ3 a))
          (normalize_to_bool (visitZ3 b)) := by
      simp only [visitZ3]
      rw [if_pos hA]
    have cOr : visitZ3 (IRTerm.orOp a b) =
        Z3Expr.boolOr (normalize_to_bool (visitZ3 a))
          (normalize_to_bool (visitZ3 b)) := by
      simp only [visitZ3]
      rw [if_pos hA]
    exact ⟨⟨fun _ => ⟨hA, hB⟩, fun _ => cAnd⟩,
      fun h => absurd ⟨hA, hB⟩ h,
      ⟨fun _ => ⟨hA, hB⟩, fun _ => cOr⟩,
      fun h => absurd ⟨hA, hB⟩ h⟩
  · rw [if_neg hw] at hA hB
    have hnb : ¬((normalize_to_bool (visitZ3 a)).sort = Z3Sort.boolS) := by
      rw [hA]
      simp
    have cAnd : visitZ3 (IRTerm.andOp a b) =
        Z3Expr.bvAnd (normalize_to_bool (visitZ3 a))
          (normalize_to_bool (visitZ3 b)) := by
      simp only [visitZ3]
      rw [if_neg hnb]
    have cOr : visitZ3 (IRTerm.orOp a b) =
        Z3Expr.bvOr (normalize_to_bool (visitZ3 a))
          (normalize_to_bool (visitZ3 b)) := by
      simp only [visitZ3]
      rw [if_neg hnb]
    refine ⟨⟨?_, fun h => absurd h.1 hnb⟩, fun _ => cAnd,
      ⟨?_, fun h => absurd h.1 hnb⟩, fun _ => cOr⟩
    · intro h
      rw [cAnd] at h
      exact absurd h (by simp)
    · intro h
      rw [cOr] at h
      exact absurd h (by simp)

/-- Witness for C7 at a concrete well-typed conjunction of 1-bit terms: the
boolean connective is emitted. -/
theorem visit_and_or_bool_emission_witness :
    IRTerm.ty sampleAndLhs = some 1 ∧
    visitZ3 (.andOp sampleAndLhs sampleAndRhs) =
      Z3Expr.boolAnd (normalize_to_bool (visitZ3 sampleAndLhs))
        (normalize_to_bool (visitZ3 sampleAndRhs)) :=
  ⟨rfl,
   ((visit_and_or_bool_emission sampleAndLhs sampleAndRhs 1 rfl rfl).1).mpr
     (by decide)⟩

/-- Extracting the three IEEE-754 fields of a pattern assembled as
`mantissa + exponent * 2 ^ (sbits - 1)` with an all-ones exponent. -/
theorem float_fields_assemble (eb sb m : Nat) (heb : 1 ≤ eb) (hsb : 2 ≤ sb)
    (hm : m < 2 ^ (sb - 1)) :
    FloatBits.exponentField eb sb (m + (2 ^ eb - 1) * 2 ^ (sb - 1)) =
      2 ^ eb - 1 ∧
    FloatBits.mantissaField sb (m + (2 ^ eb - 1) * 2 ^ (sb - 1)) = m ∧
    FloatBits.signBit eb sb (m + (2 ^ eb - 1) * 2 ^ (sb - 1)) = 0 := by
  have hp : 0 < 2 ^ (sb - 1) := pow_pos (by norm_num) _
  have hE : 0 < 2 ^ eb := pow_pos (by norm_num) _
  refine ⟨?_, ?_, ?_⟩
  · unfold FloatBits.exponentField
    rw [Nat.add_mul_div_right _ _ hp, Nat.div_eq_of_lt hm, Nat.zero_add,
      Nat.mod_eq_of_lt (by omega)]
  · unfold FloatBits.mantissaField
    rw [Nat.add_mul_mod_self_right, Nat.mod_eq_of_lt hm]
  · unfold FloatBits.signBit
    apply Nat.div_eq_of_lt
    have hsplit : eb + sb - 1 = eb + (sb - 1) := by omega
    rw [hsplit, pow_add]
    calc m + (2 ^ eb - 1) * 2 ^ (sb - 1)
        < 2 ^ (sb - 1) + (2 ^ eb - 1) * 2 ^ (sb - 1) := by omega
      _ = 2 ^ eb * 2 ^ (sb - 1) := by
          obtain ⟨k, hk⟩ : ∃ k, 2 ^ eb = k + 1 := ⟨2 ^ eb - 1, by omega⟩
          rw [hk, Nat.add_sub_cancel]
          ring

/-- The decoder's NaN mantissa fix-up: after replacing a zero significand by
1 and stripping the leading bit, the mantissa is non-zero, provided the
reported significand is not exactly the lone leading bit (Z3 reports 0 for
NaN numerals). -/
theorem nan_mantissa_ne_zero (sb s : Nat) (hsb : 2 ≤ sb) (hs_lt : s < 2 ^ sb)
    (hsig : s ≠ 2 ^ (sb - 1)) :
    (if s = 0 then 1 else s) % 2 ^ (sb - 1) ≠ 0 := by
  have hp : 0 < 2 ^ (sb - 1) := pow_pos (by norm_num) _
  have hp2 : 2 ≤ 2 ^ (sb - 1) := by
    calc 2 = 2 ^ 1 := (pow_one 2).symm
      _ ≤ 2 ^ (sb - 1) := Nat.pow_le_pow_right (by norm_num) (by omega)
  have h2p : 2 ^ sb = 2 * 2 ^ (sb - 1) := by
    obtain ⟨k, hk⟩ : ∃ k, sb = k + 1 := ⟨sb - 1, by omega⟩
    subst hk
    rw [pow_succ, Nat.add_sub_cancel, Nat.mul_comm]
  by_cases h0 : s = 0
  · rw [if_pos h0, Nat.mod_eq_of_lt (by omega)]
    omega
  · rw [if_neg h0]
    intro hmod
    obtain ⟨c, hc⟩ := Nat.dvd_of_mod_eq_zero hmod
    rcases c with _ | _ | c
    · rw [Nat.mul_zero] at hc
      exact h0 hc
    · rw [Nat.mul_one] at hc
      exact hsig hc
    · have hge : 2 * 2 ^ (sb - 1) ≤ 2 ^ (sb - 1) * (c + 2) := by
        calc 2 * 2 ^ (sb - 1) = 2 ^ (sb - 1) * 2 := Nat.mul_comm _ _
          _ ≤ 2 ^ (sb - 1) * (c + 2) := Nat.mul_le_mul_left _ (by omega)
      rw [← hc] at hge
      rw [h2p] at hs_lt
      omega

/-- Claim C8: for every SMT model binding a float symbol to a NaN numeral
(whose reported significand is not the lone leading bit — Z3 reports 0),
model decoding via the float numeral conversion returns a float whose
exponent field is all ones, whose mantissa (after the leading bit is
stripped) is non-zero, and whose sign bit is 0. -/
theorem model_lookup_nan (constants : Nat → Option Z3Val) (s : Nat)
    (x : Z3FpaNumeral) (hc : constants s = some (.fpa x))
    (hnan : x.isNaN = true)
    (hsig : x.significand % 2 ^ x.sbits ≠ 2 ^ (x.sbits - 1))
    (hs2 : 2 ≤ x.sbits) (he1 : 1 ≤ x.ebits) :
    Z3Model.lookup constants s none =
      some (.floatV x.ebits x.sbits (z3_to_apfloat x)) ∧
    FloatBits.exponentField x.ebits x.sbits (z3_to_apfloat x) =
      2 ^ x.ebits - 1 ∧
    FloatBits.mantissaField x.sbits (z3_to_apfloat x) ≠ 0 ∧
    FloatBits.signBit x.ebits x.sbits (z3_to_apfloat x) = 0 := by
  have hpat : z3_to_apfloat x =
      ((if x.significand % 2 ^ x.sbits = 0 then 1 else
        x.significand % 2 ^ x.sbits) % 2 ^ (x.sbits - 1)) +
        (2 ^ x.ebits - 1) * 2 ^ (x.sbits - 1) := by
    unfold z3_to_apfloat
    simp [hnan]
  have hmlt : (if x.significand % 2 ^ x.sbits = 0 then 1 else
      x.significand % 2 ^ x.sbits) % 2 ^ (x.sbits - 1) < 2 ^ (x.sbits - 1) :=
    Nat.mod_lt _ (pow_pos (by norm_num) _)
  have hfields := float_fields_assemble x.ebits x.sbits _ he1 hs2 hmlt
  have hmne := nan_mantissa_ne_zero x.sbits (x.significand % 2 ^ x.sbits) hs2
    (Nat.mod_lt _ (pow_pos (by norm_num) _)) hsig
  refine ⟨?_, ?_, ?_, ?_⟩
  · unfold Z3Model.lookup
    rw [hc]
  · rw [hpat]
    exact hfields.1
  · rw [hpat, hfields.2.1]
    exact hmne
  · rw [hpat]
    exact hfields.2.2

/-- Witness for C8 at the concrete single-precision NaN numeral. -/
theorem model_lookup_nan_witness :
    Z3Model.lookup nanConstants 0 none =
      some (.floatV nanNumeral.ebits nanNumeral.sbits
        (z3_to_apfloat nanNumeral)) ∧
    FloatBits.exponentField nanNumeral.ebits nanNumeral.sbits
      (z3_to_apfloat nanNumeral) = 2 ^ nanNumeral.ebits - 1 ∧
    FloatBits.mantissaField nanNumeral.sbits (z3_to_apfloat nanNumeral) ≠ 0 ∧
    FloatBits.signBit nanNumeral.ebits nanNumeral.sbits
      (z3_to_apfloat nanNumeral) = 0 :=
  model_lookup_nan nanConstants 0 nanNumeral rfl rfl (by decide) (by decide)
    (by decide)

end Caffeine
